import Mathlib

/-!
Verification of the asana-extractor core: a shallow Lean embedding of
the retry engine (`pkg/retry/retry.go`), the admission limiter
(`pkg/ratelimit/limiter.go`), the paginated fetchers
(`pkg/asana/users.go`, `pkg/asana/projects.go`) and the extraction
orchestrator (`pkg/extractor/extractor.go`), with theorems settling the
behavioural claims about them.
-/

namespace Retry

/-- The result of one call of the wrapped operation, as seen by
`ShouldRetry(resp, err)`: `err` models a non-nil transport-level
`error`; `status` models `resp.StatusCode` (meaningful when `err` is
false, matching the Go code which only inspects `resp` after the
`err != nil` check). -/
structure Outcome where
  err : Bool
  status : Nat
  deriving Repr, DecidableEq

/-- Embeds `retry.Config`: `MaxRetries`, `InitialBackoff`, `MaxBackoff`.
Durations (Go `time.Duration`, an integer number of nanoseconds fed
through `float64` arithmetic in `CalculateBackoff`) are modelled as
rationals. -/
structure Config where
  maxRetries : Nat
  initialBackoff : ℚ
  maxBackoff : ℚ

/-- Embeds `retry.ShouldRetry`: retry on a transport error, on HTTP 429
(`http.StatusTooManyRequests`), and on the 5xx server-error class. -/
def ShouldRetry (o : Outcome) : Bool :=
  if o.err then true
  else if o.status == 429 then true
  else if 500 ≤ o.status && o.status < 600 then true
  else false

/-- Embeds `retry.CalculateBackoff`.  `retryAfter` is the server hint
(`GetRetryAfter` result); `u ∈ [0,1]` stands for the draw of
`rand.Float64()`.  The Go float arithmetic is modelled exactly over ℚ:
`backoff = initial * 2^attempt`, `jitter = backoff * 0.25 * (u*2 - 1)`,
then an upper clamp at `maxBackoff`. -/
def CalculateBackoff (attempt : Nat) (cfg : Config) (retryAfter : ℚ) (u : ℚ) : ℚ :=
  if 0 < retryAfter then retryAfter
  else
    let backoff : ℚ := cfg.initialBackoff * 2 ^ attempt
    let jitter : ℚ := backoff * (1/4) * (u * 2 - 1)
    let backoff' := backoff + jitter
    if cfg.maxBackoff < backoff' then cfg.maxBackoff else backoff'

/-- What `retry.Do` returns: either the (response, error) pair of a
non-retryable attempt is passed through unchanged (`done`), or the
attempts were exhausted — wrapping the last transport error when one
occurred (`exhaustedErr`), otherwise reporting the last status
(`exhaustedStatus`) — or the context was cancelled during the
inter-attempt wait (`cancelled`). -/
inductive DoResult where
  | done (o : Outcome)
  | exhaustedErr (o : Outcome)
  | exhaustedStatus (status : Nat)
  | cancelled
  deriving Repr, DecidableEq

/-- The loop of `retry.Do` from a given attempt index with
`remaining = cfg.MaxRetries - attempt` further attempts allowed.
`fn i` is the outcome of the `i`-th invocation of the operation;
`cancel i` tells whether the context is observed done during the wait
that follows attempt `i`.  Returns the result together with the number
of invocations of `fn` performed. -/
def doGo (fn : Nat → Outcome) (cancel : Nat → Bool) :
    (attempt : Nat) → (remaining : Nat) → DoResult × Nat
  | attempt, remaining =>
    let o := fn attempt
    if ¬ ShouldRetry o then (.done o, 1)
    else
      match remaining with
      | 0 => (if o.err then .exhaustedErr o else .exhaustedStatus o.status, 1)
      | r + 1 =>
        if cancel attempt then (.cancelled, 1)
        else
          let rest := doGo fn cancel (attempt + 1) r
          (rest.1, rest.2 + 1)

/-- Embeds `retry.Do`: the loop runs `attempt = 0 … cfg.MaxRetries`. -/
def Do (cfg : Config) (fn : Nat → Outcome) (cancel : Nat → Bool) : DoResult × Nat :=
  doGo fn cancel 0 cfg.maxRetries

end Retry


namespace Ratelimit

/-- Embeds `ratelimit.RequestType`. -/
inductive RequestType where
  | read
  | write
  deriving Repr, DecidableEq

/-- Embeds `ratelimit.Config`. The Go fields are `int`, so they are
modelled as ℤ (a configuration is not forced to be non-negative). -/
structure Config where
  requestsPerMinute : Int
  maxConcurrentRead : Int
  maxConcurrentWrite : Int

/-- The mutable part of `ratelimit.Limiter` relevant to the concurrency
ceilings together with its configured ceilings, plus the token count of
the `rate.Limiter` bucket.  `currentReads`/`currentWrites` are Go `int`
fields, modelled as ℤ so that non-negativity is a property, not a
typing artefact. -/
structure Limiter where
  tokens : Int
  currentReads : Int
  currentWrites : Int
  maxConcurrentRead : Int
  maxConcurrentWrite : Int
  deriving Repr, DecidableEq

/-- Embeds `ratelimit.NewLimiter`: counters start at the Go zero value,
ceilings are copied from the configuration, and the token bucket starts
with a burst of `RequestsPerMinute` tokens. -/
def NewLimiter (cfg : Config) : Limiter :=
  { tokens := cfg.requestsPerMinute
    currentReads := 0
    currentWrites := 0
    maxConcurrentRead := cfg.maxConcurrentRead
    maxConcurrentWrite := cfg.maxConcurrentWrite }

/-- One body of the slot-acquisition loop in `Acquire` (the critical
section under `l.mu`): increment the in-flight counter of the request's
class when it is strictly below its ceiling, and report whether the
caller `canProceed`. -/
def tryAcquire (l : Limiter) (reqType : RequestType) : Limiter × Bool :=
  match reqType with
  | .read =>
    if l.currentReads < l.maxConcurrentRead then
      ({ l with currentReads := l.currentReads + 1 }, true)
    else (l, false)
  | .write =>
    if l.currentWrites < l.maxConcurrentWrite then
      ({ l with currentWrites := l.currentWrites + 1 }, true)
    else (l, false)

/-- Embeds `ratelimit.Release`: decrement the in-flight counter of the
class, with the defensive `> 0` floor. -/
def Release (l : Limiter) (reqType : RequestType) : Limiter :=
  match reqType with
  | .read =>
    if l.currentReads > 0 then { l with currentReads := l.currentReads - 1 } else l
  | .write =>
    if l.currentWrites > 0 then { l with currentWrites := l.currentWrites - 1 } else l

/-- Result of `Acquire`: the slot was granted, or the context was
cancelled (Go: `ctx.Err()` returned), or the polling loop was still
running when the observation window (`fuel`) closed. -/
inductive AcquireOutcome where
  | acquired (l : Limiter)
  | cancelled (l : Limiter)
  | running (l : Limiter)
  deriving Repr, DecidableEq

/-- The limiter state carried by an `Acquire` outcome. -/
def AcquireOutcome.limiter : AcquireOutcome → Limiter
  | .acquired l => l
  | .cancelled l => l
  | .running l => l

/-- The `for` polling loop of `Acquire`, entered after the token-bucket
wait: each iteration runs `tryAcquire`; on failure it waits 100 ms,
during which the context may be observed done (`cancel i` for iteration
`i`).  The Go loop is unbounded, so it is run for `fuel` iterations;
`running` reports that it had not yet terminated. -/
def acquirePoll (reqType : RequestType) (cancel : Nat → Bool) :
    (fuel : Nat) → (i : Nat) → Limiter → AcquireOutcome
  | 0, _, l => .running l
  | fuel + 1, i, l =>
    let res := tryAcquire l reqType
    if res.2 then .acquired res.1
    else if cancel i then .cancelled l
    else acquirePoll reqType cancel fuel (i + 1) res.1

/-- Embeds `ratelimit.Acquire`.  The call first waits on the
`rate.Limiter` token bucket: `bucketGranted = false` models the wait
ending with a context error (in which case `rate.Wait` consumes no
token and `Acquire` returns before touching the counters), and
`bucketGranted = true` models the wait succeeding, which consumes one
token; then the slot-polling loop runs. -/
def Acquire (l : Limiter) (reqType : RequestType) (bucketGranted : Bool)
    (cancel : Nat → Bool) (fuel : Nat) : AcquireOutcome :=
  if bucketGranted then
    acquirePoll reqType cancel fuel 0 { l with tokens := l.tokens - 1 }
  else .cancelled l

/-- The invariant of the spec's LimiterState:
`0 ≤ in-flight-reads ≤ maxRead` and `0 ≤ in-flight-writes ≤ maxWrite`. -/
def Inv (l : Limiter) : Prop :=
  0 ≤ l.currentReads ∧ l.currentReads ≤ l.maxConcurrentRead ∧
  0 ≤ l.currentWrites ∧ l.currentWrites ≤ l.maxConcurrentWrite

instance (l : Limiter) : Decidable (Inv l) := by
  unfold Inv; infer_instance

end Ratelimit

namespace Asana

/-- Embeds `asana.Workspace`. -/
structure Workspace where
  gid : String
  resourceType : String
  name : String
  deriving Repr, DecidableEq

/-- Embeds `asana.Team`. -/
structure Team where
  gid : String
  resourceType : String
  name : String
  deriving Repr, DecidableEq

/-- Embeds `asana.User`. -/
structure User where
  gid : String
  resourceType : String
  name : String
  email : String
  workspaces : List Workspace
  deriving Repr, DecidableEq

/-- Embeds `asana.Project`.  Go `time.Time` instants are modelled as
integers (nanoseconds since the epoch); nil-able pointers as `Option`. -/
structure Project where
  gid : String
  resourceType : String
  name : String
  archived : Bool
  color : String
  createdAt : Int
  modifiedAt : Int
  owner : Option User
  «public» : Bool
  workspace : Option Workspace
  team : Option Team
  deriving Repr, DecidableEq

/-- Embeds `asana.NextPage` as received out of one page fetch: the Go
code only ever reads `nextPage.Offset` after checking `nextPage != nil`,
so a page's continuation is `none` (nil pointer) or `some offset`. -/
abbrev NextPageOffset := Option String

/-- One page fetch (`GetUsers` / `GetProjects` with the page size and
workspace already fixed): from the current offset, either a transport or
parse error, or the page's item list with its continuation. -/
abbrev PageFetch (α : Type) := String → Except String (List α × NextPageOffset)

/-- The pagination loop shared verbatim by `asana.GetAllUsers` and
`asana.GetAllProjects`: fetch at the current offset; a fetch error
aborts the whole sequence; an empty item list ends the stream (even if a
cursor is present); a nil or empty `nextPage.Offset` ends the stream
after appending; otherwise continue from the new offset.  The Go loop
is unbounded, so it is unrolled for `fuel` iterations; `none` means the
loop was still running after `fuel` fetches.  The returned `Nat` counts
the fetches performed. -/
def getAllAux (fetch : PageFetch α) :
    (fuel : Nat) → (currentOffset : String) → Option (Except String (List α) × Nat)
  | 0, _ => none
  | fuel + 1, currentOffset =>
    match fetch currentOffset with
    | .error e => some (.error e, 1)
    | .ok (items, nextPage) =>
      if items.isEmpty then some (.ok [], 1)
      else
        match nextPage with
        | none => some (.ok items, 1)
        | some nextOffset =>
          if nextOffset = "" then some (.ok items, 1)
          else
            match getAllAux fetch fuel nextOffset with
            | none => none
            | some (.error e, n) => some (.error e, n + 1)
            | some (.ok rest, n) => some (.ok (items ++ rest), n + 1)

/-- A concrete user with the given GID, for test-scenario pages. -/
def mkUser (g : String) : User :=
  { gid := g, resourceType := "user", name := g, email := "", workspaces := [] }

/-- Embeds `asana.GetAllUsers`: run the pagination loop over `GetUsers`
pages, starting from the zero-value offset `""`. -/
def GetAllUsers (fetch : PageFetch User) (fuel : Nat) :
    Option (Except String (List User) × Nat) :=
  getAllAux fetch fuel ""

/-- Embeds `asana.GetAllProjects`: the same loop over `GetProjects`
pages. -/
def GetAllProjects (fetch : PageFetch Project) (fuel : Nat) :
    Option (Except String (List Project) × Nat) :=
  getAllAux fetch fuel ""

end Asana

namespace Extractor

/-- Embeds `extractor.Stats` (the `Duration` stamp, wall-clock time, is
not modelled).  The counters start at zero and are only ever
incremented, so they are ℕ. -/
structure Stats where
  usersExtracted : Nat
  projectsExtracted : Nat
  errors : Nat
  deriving Repr, DecidableEq

/-- A run's collaborator behaviour, matching the `AsanaClient` and
`Storage` interfaces: the outcome of `GetAllUsers`/`GetAllProjects`
and of each per-item `WriteUser`/`WriteProject` call. -/
structure Behavior where
  getAllUsers : Except String (List Asana.User)
  getAllProjects : Except String (List Asana.Project)
  writeUser : Asana.User → Except String Unit
  writeProject : Asana.Project → Except String Unit

/-- Whether a per-item persistence call succeeded. -/
def writeOk : Except String Unit → Bool
  | .ok _ => true
  | .error _ => false

/-- The per-user persistence loop of the sequential `Extract`: on a
write error increment `Errors` and continue; otherwise increment
`UsersExtracted`. -/
def writeUsersLoop (writeUser : Asana.User → Except String Unit)
    (users : List Asana.User) (stats : Stats) : Stats :=
  users.foldl
    (fun s user =>
      match writeUser user with
      | .error _ => { s with errors := s.errors + 1 }
      | .ok _ => { s with usersExtracted := s.usersExtracted + 1 })
    stats

/-- The per-project persistence loop of the sequential `Extract`. -/
def writeProjectsLoop (writeProject : Asana.Project → Except String Unit)
    (projects : List Asana.Project) (stats : Stats) : Stats :=
  projects.foldl
    (fun s project =>
      match writeProject project with
      | .error _ => { s with errors := s.errors + 1 }
      | .ok _ => { s with projectsExtracted := s.projectsExtracted + 1 })
    stats

/-- Embeds the sequential `extractor.Extract`: extract and persist all
users, then all projects; a `GetAll*` failure returns the stats so far
with a wrapped error; a per-item write failure only bumps `Errors`. -/
def ExtractSequential (b : Behavior) : Stats × Option String :=
  let stats : Stats := ⟨0, 0, 0⟩
  match b.getAllUsers with
  | .error e => (stats, some ("failed to extract users: " ++ e))
  | .ok users =>
    let stats := writeUsersLoop b.writeUser users stats
    match b.getAllProjects with
    | .error e => (stats, some ("failed to extract projects: " ++ e))
    | .ok projects =>
      let stats := writeProjectsLoop b.writeProject projects stats
      (stats, none)

/-- The stats-update events sent over the `results` channel of the
concurrent `Extract`: the three closures `s.UsersExtracted++`,
`s.ProjectsExtracted++` and `s.Errors++`. -/
inductive Update where
  | incUsers
  | incProjects
  | incErrors
  deriving Repr, DecidableEq

/-- The actor applies one update to the stats. -/
def applyUpdate (s : Stats) : Update → Stats
  | .incUsers => { s with usersExtracted := s.usersExtracted + 1 }
  | .incProjects => { s with projectsExtracted := s.projectsExtracted + 1 }
  | .incErrors => { s with errors := s.errors + 1 }

/-- The user worker goroutine of the concurrent `Extract`: on a fetch
failure it reports a wrapped fatal error on `errChan` and sends no
updates; otherwise it sends, in item order, one update per user —
`Errors++` on a write failure, `UsersExtracted++` on success. -/
def userWorker (b : Behavior) : List Update × Option String :=
  match b.getAllUsers with
  | .error e => ([], some ("user API failure: " ++ e))
  | .ok users =>
    (users.map (fun user =>
      match b.writeUser user with
      | .error _ => Update.incErrors
      | .ok _ => Update.incUsers), none)

/-- The project worker goroutine of the concurrent `Extract`. -/
def projectWorker (b : Behavior) : List Update × Option String :=
  match b.getAllProjects with
  | .error e => ([], some ("project API failure: " ++ e))
  | .ok projects =>
    (projects.map (fun project =>
      match b.writeProject project with
      | .error _ => Update.incErrors
      | .ok _ => Update.incProjects), none)

/-- The relation `Interleave l₁ l₂ l`: `l` is an order-preserving merge of `l₁` and
`l₂` — the possible arrival orders on the shared `results` channel of
updates sent concurrently by the two workers. -/
inductive Interleave : List α → List α → List α → Prop where
  | nil : Interleave [] [] []
  | left {a : α} {l₁ l₂ l : List α} :
      Interleave l₁ l₂ l → Interleave (a :: l₁) l₂ (a :: l)
  | right {a : α} {l₁ l₂ l : List α} :
      Interleave l₁ l₂ l → Interleave l₁ (a :: l₂) (a :: l)

/-- The error the main goroutine receives first from `errChan` when at
least one worker failed (`for err := range errChan` returns on the first
value; which worker's error arrives first is schedule-dependent). -/
def FirstError (uErr pErr : Option String) (e : String) : Prop :=
  uErr = some e ∨ pErr = some e

/-- Embeds the concurrent `extractor.Extract` (the actor-based version)
as a relation from collaborator behaviour to the returned
`(stats, error)` pair, quantifying over goroutine schedules:

* `success`: neither worker hit a fetch error; `errChan` closes without
  a value, the run waits on `doneProcessing`, so the actor has applied
  every sent update, in some arrival order `l` interleaving the two
  workers' update streams; the error result is `nil`.
* `fatal`: some worker reported a fatal error; the run returns the
  first error received together with the stats at that moment — the
  actor has applied some prefix of each worker's update stream, merged
  in arrival order. -/
inductive ExtractConcurrent (b : Behavior) : Stats × Option String → Prop where
  | success (l : List Update)
      (hu : (userWorker b).2 = none) (hp : (projectWorker b).2 = none)
      (hl : Interleave (userWorker b).1 (projectWorker b).1 l) :
      ExtractConcurrent b (l.foldl applyUpdate ⟨0, 0, 0⟩, none)
  | fatal (e : String) (k₁ k₂ : Nat) (l : List Update)
      (he : FirstError (userWorker b).2 (projectWorker b).2 e)
      (hl : Interleave ((userWorker b).1.take k₁) ((projectWorker b).1.take k₂) l) :
      ExtractConcurrent b (l.foldl applyUpdate ⟨0, 0, 0⟩, some e)

/-- A concrete project for witness scenarios. -/
def pX : Asana.Project :=
  { gid := "p1", resourceType := "project", name := "p1", archived := false,
    color := "", createdAt := 0, modifiedAt := 0, owner := none,
    «public» := false, workspace := none, team := none }

/-- A run in which both fetches succeed (one user, one project) and
every per-item write succeeds. -/
def bAllOk : Behavior :=
  { getAllUsers := .ok [Asana.mkUser "u1"]
    getAllProjects := .ok [pX]
    writeUser := fun _ => .ok ()
    writeProject := fun _ => .ok () }

/-- A run in which the user fetch fails and the project fetch returns
no items. -/
def bUserFail : Behavior :=
  { getAllUsers := .error "boom"
    getAllProjects := .ok []
    writeUser := fun _ => .ok ()
    writeProject := fun _ => .ok () }

end Extractor

/-! ## Retry engine theorems -/

namespace Retry

lemma doGo_all_retryable (fn : Nat → Outcome) (cancel : Nat → Bool)
    (hc : ∀ i, cancel i = false) (hr : ∀ i, ShouldRetry (fn i) = true) :
    ∀ (remaining attempt : Nat),
      doGo fn cancel attempt remaining =
        ((if (fn (attempt + remaining)).err then .exhaustedErr (fn (attempt + remaining))
          else .exhaustedStatus (fn (attempt + remaining)).status), remaining + 1) := by
  intro remaining
  induction remaining with
  | zero =>
    intro attempt
    unfold doGo
    simp [hr attempt]
  | succ r ih =>
    intro attempt
    have h1 : doGo fn cancel attempt (r + 1) =
        ((doGo fn cancel (attempt + 1) r).1, (doGo fn cancel (attempt + 1) r).2 + 1) := by
      conv_lhs => rw [doGo.eq_def]
      simp [hr attempt, hc attempt]
    rw [h1, ih (attempt + 1)]
    have harith : attempt + 1 + r = attempt + (r + 1) := by omega
    rw [harith]

/-- C1: with no cancellation, if every call's outcome is retryable,
`retry.Do` invokes the operation exactly `maxRetries + 1` times and
returns the terminal max-retries-exceeded error (wrapping the last
transport error when one occurred, otherwise describing the last
status); if the first outcome is non-retryable, the operation is
invoked exactly once and its (response, error) pair is returned
unchanged. -/
theorem do_attempt_counts (cfg : Config) (fn : Nat → Outcome) (cancel : Nat → Bool)
    (hc : ∀ i, cancel i = false) :
    ((∀ i, ShouldRetry (fn i) = true) →
      (Do cfg fn cancel).2 = cfg.maxRetries + 1 ∧
      (Do cfg fn cancel).1 =
        (if (fn cfg.maxRetries).err then .exhaustedErr (fn cfg.maxRetries)
         else .exhaustedStatus (fn cfg.maxRetries).status)) ∧
    (ShouldRetry (fn 0) = false →
      Do cfg fn cancel = (.done (fn 0), 1)) := by
  constructor
  · intro hr
    unfold Do
    rw [doGo_all_retryable fn cancel hc hr cfg.maxRetries 0]
    simp
  · intro h0
    unfold Do doGo
    simp [h0]

/-- Witness for `do_attempt_counts` at `maxRetries = 2` with an
always-retryable transport error, and a non-retryable 404 first call. -/
theorem do_attempt_counts_witness :
    ((Do ⟨2, 1, 60⟩ (fun _ => ⟨true, 0⟩) (fun _ => false)).2 = 3 ∧
      (Do ⟨2, 1, 60⟩ (fun _ => ⟨true, 0⟩) (fun _ => false)).1 = .exhaustedErr ⟨true, 0⟩) ∧
    Do ⟨2, 1, 60⟩ (fun _ => ⟨false, 404⟩) (fun _ => false) = (.done ⟨false, 404⟩, 1) := by
  constructor
  · have h := (do_attempt_counts ⟨2, 1, 60⟩ (fun _ => ⟨true, 0⟩) (fun _ => false)
      (fun _ => rfl)).1 (fun _ => rfl)
    simpa using h
  · exact (do_attempt_counts ⟨2, 1, 60⟩ (fun _ => ⟨false, 404⟩) (fun _ => false)
      (fun _ => rfl)).2 (by decide)

/-- C8: `ShouldRetry` returns true exactly when the transport error is
non-nil, or the status is 429, or the status is in the 5xx class; and
any non-retryable first outcome is returned by `Do` immediately, after
exactly one invocation. -/
theorem shouldRetry_classification :
    (∀ o : Outcome, ShouldRetry o = true ↔
      o.err = true ∨ o.status = 429 ∨ (500 ≤ o.status ∧ o.status < 600)) ∧
    (∀ (cfg : Config) (fn : Nat → Outcome) (cancel : Nat → Bool),
      ShouldRetry (fn 0) = false → Do cfg fn cancel = (.done (fn 0), 1)) := by
  constructor
  · intro o
    unfold ShouldRetry
    split_ifs with h1 h2 h3 <;> simp_all
  · intro cfg fn cancel h0
    unfold Do doGo
    simp [h0]

/-- Witness for `shouldRetry_classification`: 429 is retryable, 503 is
retryable, 404 is not and is returned at once. -/
theorem shouldRetry_classification_witness :
    ShouldRetry ⟨false, 429⟩ = true ∧ ShouldRetry ⟨false, 503⟩ = true ∧
    Do ⟨5, 1, 60⟩ (fun _ => ⟨false, 404⟩) (fun _ => true) = (.done ⟨false, 404⟩, 1) := by
  refine ⟨?_, ?_, ?_⟩
  · exact (shouldRetry_classification.1 ⟨false, 429⟩).mpr (by decide)
  · exact (shouldRetry_classification.1 ⟨false, 503⟩).mpr (by decide)
  · exact shouldRetry_classification.2 ⟨5, 1, 60⟩ (fun _ => ⟨false, 404⟩) (fun _ => true)
      (by decide)

/-- C3: a positive server hint is returned exactly (never clamped);
otherwise, for every jitter draw `u ∈ [0,1]` and non-negative initial
backoff, the result is the exponential-backoff value with ±25% jitter,
upper-clamped at `maxBackoff`: it lies between `0.75·initial·2^attempt`
and `1.25·initial·2^attempt`, both clamped above by `maxBackoff`.
The embedding is a pure function of its arguments, so the call cannot
mutate the policy. -/
theorem calculateBackoff_spec (attempt : Nat) (cfg : Config) (retryAfter u : ℚ)
    (hi : 0 ≤ cfg.initialBackoff) (hu0 : 0 ≤ u) (hu1 : u ≤ 1) :
    (0 < retryAfter → CalculateBackoff attempt cfg retryAfter u = retryAfter) ∧
    (retryAfter ≤ 0 →
      min (3 / 4 * (cfg.initialBackoff * 2 ^ attempt)) cfg.maxBackoff ≤
        CalculateBackoff attempt cfg retryAfter u ∧
      CalculateBackoff attempt cfg retryAfter u ≤
        min (5 / 4 * (cfg.initialBackoff * 2 ^ attempt)) cfg.maxBackoff) := by
  constructor
  · intro hpos
    unfold CalculateBackoff
    simp [hpos]
  · intro hnp
    have hlt : ¬ 0 < retryAfter := by linarith
    unfold CalculateBackoff
    simp only [hlt, if_false]
    set base : ℚ := cfg.initialBackoff * 2 ^ attempt with hbase
    have hbase0 : 0 ≤ base := by positivity
    have hjlo : 3 / 4 * base ≤ base + base * (1 / 4) * (u * 2 - 1) := by nlinarith
    have hjhi : base + base * (1 / 4) * (u * 2 - 1) ≤ 5 / 4 * base := by nlinarith
    by_cases hclamp : cfg.maxBackoff < base + base * (1 / 4) * (u * 2 - 1)
    · simp only [hclamp, if_true]
      constructor
      · exact min_le_right _ _
      · exact le_min (by linarith) le_rfl
    · simp only [hclamp, if_false]
      push_neg at hclamp
      constructor
      · exact le_trans (min_le_left _ _) hjlo
      · exact le_min hjhi hclamp

/-- Witness for `calculateBackoff_spec` with `initial = 1`,
`max = 60`, `attempt = 0`: a hint of 7 is returned exactly, and with no
hint and a middle jitter draw the result sits in the clamped band. -/
theorem calculateBackoff_spec_witness :
    CalculateBackoff 0 ⟨5, 1, 60⟩ 7 (1 / 2) = 7 ∧
    (min (3 / 4 * ((1 : ℚ) * 2 ^ 0)) 60 ≤ CalculateBackoff 0 ⟨5, 1, 60⟩ 0 (1 / 2) ∧
      CalculateBackoff 0 ⟨5, 1, 60⟩ 0 (1 / 2) ≤ min (5 / 4 * ((1 : ℚ) * 2 ^ 0)) 60) := by
  constructor
  · exact (calculateBackoff_spec 0 ⟨5, 1, 60⟩ 7 (1 / 2) (by norm_num) (by norm_num)
      (by norm_num)).1 (by norm_num)
  · exact (calculateBackoff_spec 0 ⟨5, 1, 60⟩ 0 (1 / 2) (by norm_num) (by norm_num)
      (by norm_num)).2 (by norm_num)

end Retry


/-! ## Admission limiter theorems -/

namespace Ratelimit

lemma tryAcquire_fail_eq (l : Limiter) (t : RequestType)
    (h : (tryAcquire l t).2 = false) : (tryAcquire l t).1 = l := by
  cases t <;> unfold tryAcquire at h ⊢ <;> split_ifs at h ⊢ <;> simp_all

lemma tryAcquire_inv (l : Limiter) (t : RequestType) (h : Inv l) :
    Inv (tryAcquire l t).1 := by
  obtain ⟨h1, h2, h3, h4⟩ := h
  cases t <;> unfold tryAcquire <;> split_ifs with hc <;>
    exact ⟨by simp; omega, by simp; omega, by simp; omega, by simp; omega⟩

lemma acquirePoll_cancelled_eq (t : RequestType) (cancel : Nat → Bool) :
    ∀ (fuel i : Nat) (l l' : Limiter),
      acquirePoll t cancel fuel i l = .cancelled l' → l' = l := by
  intro fuel
  induction fuel with
  | zero => intro i l l' h; simp [acquirePoll] at h
  | succ f ih =>
    intro i l l' h
    unfold acquirePoll at h
    by_cases hp : (tryAcquire l t).2
    · simp [hp] at h
    · simp only [hp, Bool.false_eq_true, if_false] at h
      by_cases hcan : cancel i
      · simp only [hcan, if_true] at h
        exact (AcquireOutcome.cancelled.injEq _ _).mp h |>.symm
      · simp only [hcan, Bool.false_eq_true, if_false] at h
        rw [tryAcquire_fail_eq l t (by simpa using hp)] at h
        exact ih (i + 1) l l' h

lemma acquirePoll_inv (t : RequestType) (cancel : Nat → Bool) :
    ∀ (fuel i : Nat) (l : Limiter), Inv l →
      Inv ((acquirePoll t cancel fuel i l).limiter) := by
  intro fuel
  induction fuel with
  | zero => intro i l h; simpa [acquirePoll, AcquireOutcome.limiter] using h
  | succ f ih =>
    intro i l h
    unfold acquirePoll
    by_cases hp : (tryAcquire l t).2
    · simpa [hp, AcquireOutcome.limiter] using tryAcquire_inv l t h
    · simp only [hp, Bool.false_eq_true, if_false]
      by_cases hcan : cancel i
      · simpa [hcan, AcquireOutcome.limiter] using h
      · simp only [hcan, Bool.false_eq_true, if_false]
        exact ih (i + 1) (tryAcquire l t).1 (tryAcquire_inv l t h)

lemma inv_tokens (l : Limiter) (x : Int) :
    Inv { l with tokens := x } ↔ Inv l := by
  unfold Inv
  simp

/-- C2: for a limiter built from a configuration with non-negative
ceilings, the invariant `0 ≤ in-flight-reads ≤ maxRead` and
`0 ≤ in-flight-writes ≤ maxWrite` holds initially and is preserved by
every `Acquire` (whatever its outcome: the counter is incremented only
when strictly below its ceiling) and by every `Release` (which
decrements only a strictly positive counter, so a redundant `Release`
is a no-op and a counter never goes negative). -/
theorem limiter_invariant :
    (∀ cfg : Config, 0 ≤ cfg.maxConcurrentRead → 0 ≤ cfg.maxConcurrentWrite →
      Inv (NewLimiter cfg)) ∧
    (∀ (l : Limiter) (t : RequestType) (bucketGranted : Bool)
        (cancel : Nat → Bool) (fuel : Nat),
      Inv l → Inv ((Acquire l t bucketGranted cancel fuel).limiter)) ∧
    (∀ (l : Limiter) (t : RequestType), Inv l → Inv (Release l t)) ∧
    (∀ l : Limiter, l.currentReads ≤ 0 → Release l .read = l) ∧
    (∀ l : Limiter, l.currentWrites ≤ 0 → Release l .write = l) := by
  refine ⟨?_, ?_, ?_, ?_, ?_⟩
  · intro cfg hr hw
    exact ⟨le_refl 0, hr, le_refl 0, hw⟩
  · intro l t bucketGranted cancel fuel h
    unfold Acquire
    by_cases hb : bucketGranted
    · simp only [hb, if_true]
      exact acquirePoll_inv t cancel fuel 0 _ ((inv_tokens l _).mpr h)
    · simpa [hb, AcquireOutcome.limiter] using h
  · intro l t h
    obtain ⟨h1, h2, h3, h4⟩ := h
    cases t <;> unfold Release <;> split_ifs with hc <;>
      exact ⟨by simp; omega, by simp; omega, by simp; omega, by simp; omega⟩
  · intro l h
    simp only [Release]
    rw [if_neg (by omega)]
  · intro l h
    simp only [Release]
    rw [if_neg (by omega)]

/-- Witness for `limiter_invariant`: the default configuration
(150 rpm, 50 reads, 15 writes), one `Acquire` run and one `Release`. -/
theorem limiter_invariant_witness :
    Inv (NewLimiter ⟨150, 50, 15⟩) ∧
    Inv ((Acquire (NewLimiter ⟨150, 50, 15⟩) .read true (fun _ => false) 3).limiter) ∧
    Inv (Release (NewLimiter ⟨150, 50, 15⟩) .read) ∧
    Release ⟨150, 0, 0, 50, 15⟩ .read = ⟨150, 0, 0, 50, 15⟩ := by
  refine ⟨?_, ?_, ?_, ?_⟩
  · exact limiter_invariant.1 ⟨150, 50, 15⟩ (by norm_num) (by norm_num)
  · exact limiter_invariant.2.1 (NewLimiter ⟨150, 50, 15⟩) .read true (fun _ => false) 3
      (limiter_invariant.1 ⟨150, 50, 15⟩ (by norm_num) (by norm_num))
  · exact limiter_invariant.2.2.1 (NewLimiter ⟨150, 50, 15⟩) .read
      (limiter_invariant.1 ⟨150, 50, 15⟩ (by norm_num) (by norm_num))
  · exact limiter_invariant.2.2.2.1 ⟨150, 0, 0, 50, 15⟩ (by norm_num)

/-- C7: whenever `Acquire` returns a cancellation error — whether the
context fired during the token-bucket wait or during the slot-polling
loop — neither in-flight counter was incremented: the counters in the
resulting state equal those before the call. -/
theorem acquire_cancelled_no_increment (l : Limiter) (t : RequestType)
    (bucketGranted : Bool) (cancel : Nat → Bool) (fuel : Nat) (l' : Limiter)
    (h : Acquire l t bucketGranted cancel fuel = .cancelled l') :
    l'.currentReads = l.currentReads ∧ l'.currentWrites = l.currentWrites := by
  unfold Acquire at h
  by_cases hb : bucketGranted
  · simp only [hb, if_true] at h
    rw [acquirePoll_cancelled_eq t cancel fuel 0 _ l' h]
    exact ⟨rfl, rfl⟩
  · simp only [hb, Bool.false_eq_true, if_false, AcquireOutcome.cancelled.injEq] at h
    rw [← h]
    exact ⟨rfl, rfl⟩

/-- Witness for `acquire_cancelled_no_increment`: a read `Acquire` at a
full read ceiling, cancelled at the first poll. -/
theorem acquire_cancelled_no_increment_witness :
    (Limiter.currentReads ⟨9, 1, 0, 1, 1⟩ = Limiter.currentReads ⟨10, 1, 0, 1, 1⟩ ∧
      Limiter.currentWrites ⟨9, 1, 0, 1, 1⟩ = Limiter.currentWrites ⟨10, 1, 0, 1, 1⟩) :=
  acquire_cancelled_no_increment ⟨10, 1, 0, 1, 1⟩ .read true (fun _ => true) 1
    ⟨9, 1, 0, 1, 1⟩ (by decide)

/-- C9: if the token-bucket wait succeeded but the poll for a
concurrency slot was cancelled, the consumed rate token is not returned:
the cancelled `Acquire` leaves both in-flight counters unchanged but the
bucket diminished by one token. -/
theorem acquire_cancelled_consumes_token (l : Limiter) (t : RequestType)
    (cancel : Nat → Bool) (fuel : Nat) (l' : Limiter)
    (h : Acquire l t true cancel fuel = .cancelled l') :
    l'.tokens = l.tokens - 1 ∧
    l'.currentReads = l.currentReads ∧ l'.currentWrites = l.currentWrites := by
  unfold Acquire at h
  simp only [if_true] at h
  rw [acquirePoll_cancelled_eq t cancel fuel 0 _ l' h]
  exact ⟨rfl, rfl, rfl⟩

/-- Witness for `acquire_cancelled_consumes_token`: a write `Acquire`
at a full write ceiling, cancelled at the first poll, has debited one
token. -/
theorem acquire_cancelled_consumes_token_witness :
    (Limiter.tokens ⟨4, 0, 2, 5, 2⟩ = Limiter.tokens ⟨5, 0, 2, 5, 2⟩ - 1 ∧
      Limiter.currentReads ⟨4, 0, 2, 5, 2⟩ = Limiter.currentReads ⟨5, 0, 2, 5, 2⟩ ∧
      Limiter.currentWrites ⟨4, 0, 2, 5, 2⟩ = Limiter.currentWrites ⟨5, 0, 2, 5, 2⟩) :=
  acquire_cancelled_consumes_token ⟨5, 0, 2, 5, 2⟩ .write (fun _ => true) 2
    ⟨4, 0, 2, 5, 2⟩ (by decide)

end Ratelimit

/-! ## Paginated fetcher theorems -/

namespace Asana

/-- C4: the pagination loop of `GetAllUsers`/`GetAllProjects` returns
the concatenation of the pages' item lists in fetch order, one fetch per
page; it stops at the first page whose item list is empty (even if a
cursor is still present) and at the first page whose next-page cursor is
absent (`nil`) or empty; on the scenario
`[A,B] → cursor1, [C] → cursor2, [] → end` the result is `[A,B,C]` after
exactly 3 fetches, and an empty first page with no cursor yields an
empty result after exactly 1 fetch. -/
theorem getAll_pagination :
    (∀ (fetch : PageFetch User) (fuel : Nat) (off : String) (np : NextPageOffset),
        fetch off = .ok ([], np) →
        getAllAux fetch (fuel + 1) off = some (.ok [], 1)) ∧
    (∀ (fetch : PageFetch User) (fuel : Nat) (off : String) (items : List User),
        fetch off = .ok (items, none) →
        getAllAux fetch (fuel + 1) off = some (.ok items, 1)) ∧
    (∀ (fetch : PageFetch User) (fuel : Nat) (off : String) (items : List User),
        fetch off = .ok (items, some "") →
        getAllAux fetch (fuel + 1) off = some (.ok items, 1)) ∧
    (∀ (fetch : PageFetch User) (fuel : Nat) (off : String) (items : List User)
        (c : String) (rest : List User) (n : Nat),
        fetch off = .ok (items, some c) → items ≠ [] → c ≠ "" →
        getAllAux fetch fuel c = some (.ok rest, n) →
        getAllAux fetch (fuel + 1) off = some (.ok (items ++ rest), n + 1)) ∧
    (GetAllUsers
        (fun off =>
          if off = "" then .ok ([mkUser "A", mkUser "B"], some "cursor1")
          else if off = "cursor1" then .ok ([mkUser "C"], some "cursor2")
          else .ok ([], none))
        10 = some (.ok [mkUser "A", mkUser "B", mkUser "C"], 3)) ∧
    (GetAllProjects (fun _ => .ok ([], none)) 10 = some (.ok [], 1)) := by
  refine ⟨?_, ?_, ?_, ?_, ?_, ?_⟩
  · intro fetch fuel off np h
    unfold getAllAux
    simp [h]
  · intro fetch fuel off items h
    unfold getAllAux
    rcases items with _ | ⟨a, items⟩ <;> simp [h]
  · intro fetch fuel off items h
    unfold getAllAux
    rcases items with _ | ⟨a, items⟩ <;> simp [h]
  · intro fetch fuel off items c rest n h hne hc hrec
    unfold getAllAux
    simp [h, hne, hc, hrec]
  · rfl
  · rfl

/-- Witness for `getAll_pagination`: a single page with no continuation
is returned whole after one fetch. -/
theorem getAll_pagination_witness :
    getAllAux (fun _ => .ok ([mkUser "X"], none)) 1 "" = some (.ok [mkUser "X"], 1) :=
  getAll_pagination.2.1 (fun _ => .ok ([mkUser "X"], none)) 0 "" [mkUser "X"] rfl

end Asana

/-! ## Extraction orchestrator theorems -/

namespace Extractor

lemma foldl_applyUpdate : ∀ (l : List Update) (s : Stats),
    l.foldl applyUpdate s =
      ⟨s.usersExtracted + l.count .incUsers,
       s.projectsExtracted + l.count .incProjects,
       s.errors + l.count .incErrors⟩
  | [], s => by simp
  | u :: l, s => by
    cases u <;>
      simp [List.foldl_cons, foldl_applyUpdate l, applyUpdate, List.count_cons,
        Stats.mk.injEq] <;>
      omega

lemma interleave_count {l₁ l₂ l : List Update} (h : Interleave l₁ l₂ l) (a : Update) :
    l.count a = l₁.count a + l₂.count a := by
  induction h with
  | nil => simp
  | left h ih => simp [List.count_cons, ih]; omega
  | right h ih => simp [List.count_cons, ih]; omega

lemma count_user_updates (wu : Asana.User → Except String Unit) :
    ∀ users : List Asana.User,
      ((users.map fun user =>
          match wu user with
          | .error _ => Update.incErrors
          | .ok _ => Update.incUsers).count .incUsers
          = (users.filter fun u => writeOk (wu u)).length ∧
       (users.map fun user =>
          match wu user with
          | .error _ => Update.incErrors
          | .ok _ => Update.incUsers).count .incErrors
          = (users.filter fun u => ! writeOk (wu u)).length ∧
       (users.map fun user =>
          match wu user with
          | .error _ => Update.incErrors
          | .ok _ => Update.incUsers).count .incProjects = 0)
  | [] => by simp
  | u :: users => by
    have ih := count_user_updates wu users
    cases hwu : wu u <;>
      simp [List.count_cons, List.filter_cons, hwu, writeOk, ih.1, ih.2.1, ih.2.2]

lemma count_project_updates (wp : Asana.Project → Except String Unit) :
    ∀ projects : List Asana.Project,
      ((projects.map fun project =>
          match wp project with
          | .error _ => Update.incErrors
          | .ok _ => Update.incProjects).count .incProjects
          = (projects.filter fun p => writeOk (wp p)).length ∧
       (projects.map fun project =>
          match wp project with
          | .error _ => Update.incErrors
          | .ok _ => Update.incProjects).count .incErrors
          = (projects.filter fun p => ! writeOk (wp p)).length ∧
       (projects.map fun project =>
          match wp project with
          | .error _ => Update.incErrors
          | .ok _ => Update.incProjects).count .incUsers = 0)
  | [] => by simp
  | p :: projects => by
    have ih := count_project_updates wp projects
    cases hwp : wp p <;>
      simp [List.count_cons, List.filter_cons, hwp, writeOk, ih.1, ih.2.1, ih.2.2]

lemma userWorker_ok (b : Behavior) (users : List Asana.User)
    (h : b.getAllUsers = .ok users) :
    userWorker b =
      (users.map fun user =>
        match b.writeUser user with
        | .error _ => Update.incErrors
        | .ok _ => Update.incUsers, none) := by
  unfold userWorker
  rw [h]

lemma projectWorker_ok (b : Behavior) (projects : List Asana.Project)
    (h : b.getAllProjects = .ok projects) :
    projectWorker b =
      (projects.map fun project =>
        match b.writeProject project with
        | .error _ => Update.incErrors
        | .ok _ => Update.incProjects, none) := by
  unfold projectWorker
  rw [h]

lemma userWorker_err (b : Behavior) (e : String) (h : b.getAllUsers = .error e) :
    userWorker b = ([], some ("user API failure: " ++ e)) := by
  unfold userWorker
  rw [h]

lemma projectWorker_err (b : Behavior) (e : String) (h : b.getAllProjects = .error e) :
    projectWorker b = ([], some ("project API failure: " ++ e)) := by
  unfold projectWorker
  rw [h]

lemma concurrent_ok_stats (b : Behavior) (users : List Asana.User)
    (projects : List Asana.Project) (out : Stats × Option String)
    (hu : b.getAllUsers = .ok users) (hp : b.getAllProjects = .ok projects)
    (h : ExtractConcurrent b out) :
    out = (⟨(users.filter fun u => writeOk (b.writeUser u)).length,
            (projects.filter fun p => writeOk (b.writeProject p)).length,
            (users.filter fun u => ! writeOk (b.writeUser u)).length +
              (projects.filter fun p => ! writeOk (b.writeProject p)).length⟩,
           none) := by
  cases h with
  | success l hu2 hp2 hl =>
    rw [userWorker_ok b users hu, projectWorker_ok b projects hp] at hl
    simp only at hl
    have hcu := interleave_count hl Update.incUsers
    have hcp := interleave_count hl Update.incProjects
    have hce := interleave_count hl Update.incErrors
    have hu3 := count_user_updates b.writeUser users
    have hp3 := count_project_updates b.writeProject projects
    rw [foldl_applyUpdate]
    simp only [Prod.mk.injEq, Stats.mk.injEq, and_true]
    refine ⟨?_, ?_, ?_⟩ <;> omega
  | fatal e k₁ k₂ l he hl =>
    exfalso
    rcases he with he | he
    · rw [userWorker_ok b users hu] at he
      simp at he
    · rw [projectWorker_ok b projects hp] at he
      simp at he

lemma writeUsersLoop_spec (wu : Asana.User → Except String Unit) :
    ∀ (users : List Asana.User) (s : Stats),
      writeUsersLoop wu users s =
        ⟨s.usersExtracted + (users.filter fun u => writeOk (wu u)).length,
         s.projectsExtracted,
         s.errors + (users.filter fun u => ! writeOk (wu u)).length⟩
  | [], s => by simp [writeUsersLoop]
  | u :: users, s => by
    have ih := writeUsersLoop_spec wu users
    cases hwu : wu u with
    | error e =>
      have h1 : writeUsersLoop wu (u :: users) s =
          writeUsersLoop wu users { s with errors := s.errors + 1 } := by
        unfold writeUsersLoop
        rw [List.foldl_cons]
        simp [hwu]
      rw [h1, ih]
      simp only [List.filter_cons, hwu, writeOk, Bool.not_false, Bool.not_true,
        Bool.false_eq_true, if_false, if_true, List.length_cons, Stats.mk.injEq]
      exact ⟨by trivial, by trivial, by omega⟩
    | ok v =>
      have h1 : writeUsersLoop wu (u :: users) s =
          writeUsersLoop wu users { s with usersExtracted := s.usersExtracted + 1 } := by
        unfold writeUsersLoop
        rw [List.foldl_cons]
        simp [hwu]
      rw [h1, ih]
      simp only [List.filter_cons, hwu, writeOk, Bool.not_false, Bool.not_true,
        Bool.false_eq_true, if_false, if_true, List.length_cons, Stats.mk.injEq]
      exact ⟨by omega, by trivial, by trivial⟩

lemma writeProjectsLoop_spec (wp : Asana.Project → Except String Unit) :
    ∀ (projects : List Asana.Project) (s : Stats),
      writeProjectsLoop wp projects s =
        ⟨s.usersExtracted,
         s.projectsExtracted + (projects.filter fun p => writeOk (wp p)).length,
         s.errors + (projects.filter fun p => ! writeOk (wp p)).length⟩
  | [], s => by simp [writeProjectsLoop]
  | p :: projects, s => by
    have ih := writeProjectsLoop_spec wp projects
    cases hwp : wp p with
    | error e =>
      have h1 : writeProjectsLoop wp (p :: projects) s =
          writeProjectsLoop wp projects { s with errors := s.errors + 1 } := by
        unfold writeProjectsLoop
        rw [List.foldl_cons]
        simp [hwp]
      rw [h1, ih]
      simp only [List.filter_cons, hwp, writeOk, Bool.not_false, Bool.not_true,
        Bool.false_eq_true, if_false, if_true, List.length_cons, Stats.mk.injEq]
      exact ⟨by trivial, by trivial, by omega⟩
    | ok v =>
      have h1 : writeProjectsLoop wp (p :: projects) s =
          writeProjectsLoop wp projects
            { s with projectsExtracted := s.projectsExtracted + 1 } := by
        unfold writeProjectsLoop
        rw [List.foldl_cons]
        simp [hwp]
      rw [h1, ih]
      simp only [List.filter_cons, hwp, writeOk, Bool.not_false, Bool.not_true,
        Bool.false_eq_true, if_false, if_true, List.length_cons, Stats.mk.injEq]
      exact ⟨by trivial, by omega, by trivial⟩

lemma sequential_ok (b : Behavior) (users : List Asana.User)
    (projects : List Asana.Project)
    (hu : b.getAllUsers = .ok users) (hp : b.getAllProjects = .ok projects) :
    ExtractSequential b =
      (⟨(users.filter fun u => writeOk (b.writeUser u)).length,
        (projects.filter fun p => writeOk (b.writeProject p)).length,
        (users.filter fun u => ! writeOk (b.writeUser u)).length +
          (projects.filter fun p => ! writeOk (b.writeProject p)).length⟩,
       none) := by
  unfold ExtractSequential
  rw [hu, hp]
  simp only [writeUsersLoop_spec, writeProjectsLoop_spec]
  simp [Stats.mk.injEq]

end Extractor

namespace Extractor

/-- C5: in every run of the concurrent `Extract` in which both
`GetAllUsers` and `GetAllProjects` succeed, the error return is `nil`
and the stats count exactly the per-item persistence outcomes:
`UsersExtracted`/`ProjectsExtracted` are the numbers of items of each
class whose write succeeded and `Errors` is the total number of write
failures over both classes — so an individual persistence failure never
aborts a class's loop and leaves the other class's counts unaffected. -/
theorem extract_counts (b : Behavior) (users : List Asana.User)
    (projects : List Asana.Project) (out : Stats × Option String)
    (hu : b.getAllUsers = .ok users) (hp : b.getAllProjects = .ok projects)
    (h : ExtractConcurrent b out) :
    out.1.usersExtracted = (users.filter fun u => writeOk (b.writeUser u)).length ∧
    out.1.projectsExtracted =
      (projects.filter fun p => writeOk (b.writeProject p)).length ∧
    out.1.errors = (users.filter fun u => ! writeOk (b.writeUser u)).length +
      (projects.filter fun p => ! writeOk (b.writeProject p)).length ∧
    out.2 = none := by
  rw [concurrent_ok_stats b users projects out hu hp h]
  exact ⟨rfl, rfl, rfl, rfl⟩

/-- Witness for `extract_counts`: one user and one project, all writes
succeeding, one schedule of the two workers. -/
theorem extract_counts_witness :
    ((⟨1, 1, 0⟩ : Stats), (none : Option String)).1.usersExtracted =
        ([Asana.mkUser "u1"].filter fun u => writeOk (bAllOk.writeUser u)).length ∧
    ((⟨1, 1, 0⟩ : Stats), (none : Option String)).1.projectsExtracted =
        ([pX].filter fun p => writeOk (bAllOk.writeProject p)).length ∧
    ((⟨1, 1, 0⟩ : Stats), (none : Option String)).1.errors =
        ([Asana.mkUser "u1"].filter fun u => ! writeOk (bAllOk.writeUser u)).length +
        ([pX].filter fun p => ! writeOk (bAllOk.writeProject p)).length ∧
    ((⟨1, 1, 0⟩ : Stats), (none : Option String)).2 = (none : Option String) := by
  have hl : Interleave (userWorker bAllOk).1 (projectWorker bAllOk).1
      [Update.incUsers, Update.incProjects] := by
    show Interleave [Update.incUsers] [Update.incProjects]
        [Update.incUsers, Update.incProjects]
    exact Interleave.left (Interleave.right Interleave.nil)
  have h : ExtractConcurrent bAllOk ((⟨1, 1, 0⟩ : Stats), (none : Option String)) :=
    ExtractConcurrent.success [Update.incUsers, Update.incProjects] rfl rfl hl
  exact extract_counts bAllOk [Asana.mkUser "u1"] [pX] _ rfl rfl h

/-- C6: if the fetch stage of any resource class fails, the concurrent
`Extract` returns a non-nil error, and that error is the wrapped fatal
error of one failing class (the first observed on the error channel —
a single error, never an aggregate); when both fetches succeed the
error return is `nil`, so the error return is the sole success/failure
discriminator. -/
theorem extract_fatal_error (b : Behavior) (out : Stats × Option String)
    (h : ExtractConcurrent b out) :
    (((∃ e, b.getAllUsers = .error e) ∨ (∃ e, b.getAllProjects = .error e)) →
      ∃ e', out.2 = some e' ∧
        ((∃ eu, b.getAllUsers = .error eu ∧ e' = "user API failure: " ++ eu) ∨
         (∃ ep, b.getAllProjects = .error ep ∧ e' = "project API failure: " ++ ep))) ∧
    ((∃ users, b.getAllUsers = .ok users) →
      (∃ projects, b.getAllProjects = .ok projects) → out.2 = none) := by
  cases h with
  | success l hu2 hp2 hl =>
    constructor
    · rintro (⟨e, he⟩ | ⟨e, he⟩)
      · rw [userWorker_err b e he] at hu2
        simp at hu2
      · rw [projectWorker_err b e he] at hp2
        simp at hp2
    · intro _ _
      rfl
  | fatal e k₁ k₂ l he hl =>
    constructor
    · intro _
      refine ⟨e, rfl, ?_⟩
      rcases he with he | he
      · cases hg : b.getAllUsers with
        | ok users =>
          rw [userWorker_ok b users hg] at he
          simp at he
        | error eu =>
          rw [userWorker_err b eu hg] at he
          simp at he
          exact Or.inl ⟨eu, rfl, he.symm⟩
      · cases hg : b.getAllProjects with
        | ok projects =>
          rw [projectWorker_ok b projects hg] at he
          simp at he
        | error ep =>
          rw [projectWorker_err b ep hg] at he
          simp at he
          exact Or.inr ⟨ep, rfl, he.symm⟩
    · rintro ⟨users, hu⟩ ⟨projects, hp⟩
      exfalso
      rcases he with he | he
      · rw [userWorker_ok b users hu] at he
        simp at he
      · rw [projectWorker_ok b projects hp] at he
        simp at he

/-- Witness for `extract_fatal_error`: a run whose user fetch fails
with "boom" returns the single wrapped user API error. -/
theorem extract_fatal_error_witness :
    ∃ e', ((⟨0, 0, 0⟩ : Stats), some "user API failure: boom").2 = some e' ∧
      ((∃ eu, bUserFail.getAllUsers = .error eu ∧
          e' = "user API failure: " ++ eu) ∨
       (∃ ep, bUserFail.getAllProjects = .error ep ∧
          e' = "project API failure: " ++ ep)) := by
  have he : FirstError (userWorker bUserFail).2 (projectWorker bUserFail).2
      "user API failure: boom" := by
    left
    rfl
  have hl : Interleave ((userWorker bUserFail).1.take 0)
      ((projectWorker bUserFail).1.take 0) ([] : List Update) := by
    show Interleave [] [] []
    exact Interleave.nil
  have h : ExtractConcurrent bUserFail
      ((⟨0, 0, 0⟩ : Stats), some "user API failure: boom") :=
    ExtractConcurrent.fatal "user API failure: boom" 0 0 [] he hl
  exact (extract_fatal_error bUserFail _ h).1 (Or.inl ⟨"boom", rfl⟩)

/-- C10: the repository's two implementations of `Extract` — the
sequential one and the concurrent actor-based one — agree whenever both
fetches succeed: for every collaborator behaviour and every schedule of
the concurrent version, the `UsersExtracted`, `ProjectsExtracted` and
`Errors` counts coincide with the sequential version's, and both return
a `nil` error. -/
theorem extract_seq_conc_equiv (b : Behavior) (users : List Asana.User)
    (projects : List Asana.Project) (out : Stats × Option String)
    (hu : b.getAllUsers = .ok users) (hp : b.getAllProjects = .ok projects)
    (h : ExtractConcurrent b out) :
    out.1.usersExtracted = (ExtractSequential b).1.usersExtracted ∧
    out.1.projectsExtracted = (ExtractSequential b).1.projectsExtracted ∧
    out.1.errors = (ExtractSequential b).1.errors ∧
    out.2 = none ∧ (ExtractSequential b).2 = none := by
  rw [concurrent_ok_stats b users projects out hu hp h,
    sequential_ok b users projects hu hp]
  exact ⟨rfl, rfl, rfl, rfl, rfl⟩

/-- Witness for `extract_seq_conc_equiv`: the one-user one-project
all-writes-succeed run under one concrete schedule. -/
theorem extract_seq_conc_equiv_witness :
    ((⟨1, 1, 0⟩ : Stats), (none : Option String)).1.usersExtracted =
        (ExtractSequential bAllOk).1.usersExtracted ∧
    ((⟨1, 1, 0⟩ : Stats), (none : Option String)).1.projectsExtracted =
        (ExtractSequential bAllOk).1.projectsExtracted ∧
    ((⟨1, 1, 0⟩ : Stats), (none : Option String)).1.errors =
        (ExtractSequential bAllOk).1.errors ∧
    ((⟨1, 1, 0⟩ : Stats), (none : Option String)).2 = (none : Option String) ∧
    (ExtractSequential bAllOk).2 = none := by
  have hl : Interleave (userWorker bAllOk).1 (projectWorker bAllOk).1
      [Update.incUsers, Update.incProjects] := by
    show Interleave [Update.incUsers] [Update.incProjects]
        [Update.incUsers, Update.incProjects]
    exact Interleave.left (Interleave.right Interleave.nil)
  have h : ExtractConcurrent bAllOk ((⟨1, 1, 0⟩ : Stats), (none : Option String)) :=
    ExtractConcurrent.success [Update.incUsers, Update.incProjects] rfl rfl hl
  exact extract_seq_conc_equiv bAllOk [Asana.mkUser "u1"] [pX] _ rfl rfl h

end Extractor
